import Mathlib

/-!
Verification of the q2lua scripting subsystem (Quake 2 rerelease Lua
scripting engine).  The definitions below are a shallow embedding of
the C++ sources: the native entity-pool slot life cycle
(`G_InitEdict` / `G_FreeEdict`), the generation-stamped entity handles
(`script_push_entity` / `script_check_entity`), the trigger operation
(`script_entity_trigger`), the variable-table metamethods
(`script_vars_set` / `script_persistent_set` / `script_globals_set`),
the recursive read-only transform (`script_table_readonly`), the
save/restore codec (`script_get_variables` / `script_set_variables`),
level loading (`script_load` / `script_init`), the script entity's use
callback (`script_use`), and the list helper `script_pick`.
-/

namespace Q2Lua

/-! ## Native entity pool slots

A pool slot carries the `inuse` flag and the `spawn_count` generation
counter of an `edict_t`.  `G_FreeEdict` increments `spawn_count` and
clears `inuse`; `G_InitEdict` (called from `G_Spawn` when the slot is
recycled) sets `inuse` and leaves `spawn_count` alone.  `spawn_count`
is an `int32_t` in the source; signed overflow is undefined behaviour
in C++ and the source comments rule the wrap-around out ("it takes 68
years to wrap"), so it is modelled as a mathematical integer. -/

structure Slot where
  inuse : Bool
  spawn_count : ℤ
  deriving DecidableEq, Repr

/-- One transition of a native pool slot: `free` is `G_FreeEdict`
(increments the generation counter), `reuse` is `G_InitEdict` run on a
free slot by `G_Spawn` (generation unchanged). -/
inductive SlotStep : Slot → Slot → Prop where
  | free (s : Slot) (h : s.inuse = true) :
      SlotStep s ⟨false, s.spawn_count + 1⟩
  | reuse (s : Slot) (h : s.inuse = false) :
      SlotStep s ⟨true, s.spawn_count⟩

/-- Any number of free/reuse transitions. -/
def SlotReaches : Slot → Slot → Prop :=
  Relation.ReflTransGen SlotStep

/-- The stamp stored by `script_push_entity`: the slot's current
`spawn_count`, pre-decremented when the slot is not in use so that the
handle can never validate against a future occupant. -/
def script_push_entity (s : Slot) : ℤ :=
  if s.inuse then s.spawn_count else s.spawn_count - 1

/-- The validity test of `script_check_entity`: the handle is accepted
iff the slot's live `spawn_count` equals the stored stamp. -/
def script_check_entity (stamp : ℤ) (s : Slot) : Bool :=
  s.spawn_count == stamp

/-! ## Script-visible entity handles over the whole pool

`script_ud_ent_t` stores the `edict_t` pointer and the stamp; the
pointer is modelled as the slot index into `g_edicts`.  The pool is a
total map from slot indices to slots. -/

structure EntHandle where
  idx : ℕ
  spawn_count : ℤ
  deriving DecidableEq, Repr

def Pool := ℕ → Slot

/-- A concrete pool (every slot in use at generation 0) used by the
concrete instantiations below. -/
def poolW : Pool := fun _ => ⟨true, 0⟩

/-- `script_push_entity` applied to slot `i` of the pool: store the
index and the (pre-decremented when free) generation stamp. -/
def script_wrap_handle (pool : Pool) (i : ℕ) : EntHandle :=
  ⟨i, script_push_entity (pool i)⟩

/-- `script_check_entity` applied to a full handle: the stored stamp is
compared with the live slot's `spawn_count`. -/
def script_handle_ok (pool : Pool) (h : EntHandle) : Bool :=
  script_check_entity h.spawn_count (pool h.idx)

/-! ## The trigger operation (`script_entity_trigger`)

The optional second Lua argument is absent, nil, or a number; the
native `float` delay is modelled as a rational.  The outcome is either
a script-level error (raised via `luaL_argerror`, which unwinds before
any native side effect) or one of the two effects: an immediate call of
the target's use callback, or the spawning of a `DelayedTrigger` helper
entity whose `nextthink` is `level.time + delay` and whose `count`
field stores the target's current generation stamp. -/

inductive DelayArg where
  | absent : DelayArg
  | nil : DelayArg
  | num (x : ℚ) : DelayArg
  deriving DecidableEq

inductive TrigError where
  | notValid : TrigError
  | noUse : TrigError
  | selfNoDelay : TrigError
  deriving DecidableEq, Repr

inductive TrigAction where
  | spawnDelayed (classname : String) (fireTime : ℚ) (target : ℕ)
      (storedCount : ℤ) (activator : ℕ) : TrigAction
  | useNow (target selfId activator : ℕ) : TrigAction
  deriving DecidableEq, Repr

/-- Shallow embedding of `script_entity_trigger`.  `hasUse i` states
that slot `i`'s entity has a `use` callback; `selfId` and `activatorId`
are the pair read from the top of the trigger-context stack. -/
def script_entity_trigger (pool : Pool) (hasUse : ℕ → Bool) (time : ℚ)
    (h : EntHandle) (delayArg : DelayArg) (selfId activatorId : ℕ) :
    Except TrigError TrigAction :=
  if script_check_entity h.spawn_count (pool h.idx) = false then
    .error .notValid
  else
    let delay : ℚ := match delayArg with
      | .absent => -1
      | .nil => -1
      | .num x => x
    if hasUse h.idx = false then .error .noUse
    else if 0 < delay then
      .ok (.spawnDelayed "DelayedTrigger" (time + delay) h.idx
        (pool h.idx).spawn_count activatorId)
    else if h.idx = selfId then .error .selfNoDelay
    else .ok (.useNow h.idx selfId activatorId)

/-! ## Decimal text conversion

`script_get_variables` converts numbers with the Lua runtime's
`luaL_tolstring` (for an integer this is the plain decimal digits,
with a leading minus sign when negative) and `script_set_variables`
parses them back with `lua_stringtonumber` / `std::stoi`.  These
runtime collaborators are modelled by the canonical decimal
printer/parser below, over `List Char`. -/

def digitChar (d : ℕ) : Char := Char.ofNat (48 + d)

def natToDigitsRev (n : ℕ) : List Char :=
  if _h : n < 10 then [digitChar n]
  else digitChar (n % 10) :: natToDigitsRev (n / 10)
  decreasing_by exact Nat.div_lt_self (by omega) (by omega)

def natToChars (n : ℕ) : List Char := (natToDigitsRev n).reverse

def intToChars (i : ℤ) : List Char :=
  if i < 0 then '-' :: natToChars i.natAbs else natToChars i.toNat

def parseDigitsAux (acc : ℕ) : List Char → Option ℕ
  | [] => some acc
  | c :: cs =>
    if c.isDigit then parseDigitsAux (acc * 10 + (c.toNat - 48)) cs
    else none

def parseNat (cs : List Char) : Option ℕ :=
  if cs.isEmpty then none else parseDigitsAux 0 cs

def parseInt (cs : List Char) : Option ℤ :=
  match cs with
  | [] => none
  | c :: rest =>
    if c = '-' then (parseNat rest).map (fun n => -(n : ℤ))
    else (parseNat cs).map (fun n => (n : ℤ))

/-! ## The serialization codec

`script_get_variables` encodes every table entry as
`"<type>:<text>"`; `script_set_variables` splits each record at the
FIRST colon (`find_first_of`) and rebuilds the value.  The value model
covers the claim's supported types: integer numbers, booleans, strings
and entity handles.  (The floating-point `number` subtype and the
`vector` record are carried by the source as well but involve binary
floating point, outside this embedding; claim C3 quantifies only over
the types modelled here.)  When the record contains no colon,
`find_first_of` returns `npos` and the source takes
`substr(0, npos)` = whole string and `substr(npos + 1)` =
`substr(0)` = whole string, which the `none` case below mirrors. -/

def splitAux : List Char → Option (List Char × List Char)
  | [] => none
  | c :: rest =>
    if c = ':' then some ([], rest)
    else (splitAux rest).map (fun p => (c :: p.1, p.2))

def splitFirstColon (s : List Char) : List Char × List Char :=
  match splitAux s with
  | some p => p
  | none => (s, s)

/-- A script-visible value of one of the serializable shapes named by
claim C3. -/
inductive SVal where
  | num (n : ℤ) : SVal
  | boolv (b : Bool) : SVal
  | str (s : List Char) : SVal
  | ent (h : EntHandle) : SVal
  deriving DecidableEq, Repr

/-- Per-entry encoding of `script_get_variables`: the Lua type name (or
the metatable `__name` based `entity` tag), a colon, and the value
text.  An entity that is no longer in use or whose stamp mismatches is
written as `-1`; a live one as its slot index `ud->ent - g_edicts`. -/
def script_get_variables_val (pool : Pool) : SVal → List Char
  | .num n => "number".data ++ ':' :: intToChars n
  | .boolv b => "boolean".data ++ ':' ::
      (if b then "true".data else "false".data)
  | .str s => "string".data ++ ':' :: s
  | .ent h => "entity".data ++ ':' ::
      (if ¬(pool h.idx).inuse ∨ (pool h.idx).spawn_count ≠ h.spawn_count
       then "-1".data
       else natToChars h.idx)

/-- Per-entry decoding of `script_set_variables`: split at the first
colon; `number` goes through `lua_stringtonumber`, `boolean` compares
the text with `"true"`, `entity` goes through `std::stoi` and either
re-wraps slot `n` (`script_push_entity`) or, for a negative index,
builds the sentinel handle at slot 0 with stamp `-1`; any other tag
(in particular `string`) keeps the raw text. -/
def script_set_variables_val (pool : Pool) (s : List Char) : Option SVal :=
  let p := splitFirstColon s
  if p.1 = "number".data then (parseInt p.2).map SVal.num
  else if p.1 = "boolean".data then some (.boolv (p.2 = "true".data))
  else if p.1 = "entity".data then
    match parseInt p.2 with
    | some n =>
      if n < 0 then some (.ent ⟨0, -1⟩)
      else some (.ent (script_wrap_handle pool n.toNat))
    | none => none
  else some (.str p.2)

def mapOptionList (f : α → Option β) : List α → Option (List β)
  | [] => some []
  | a :: as =>
    match f a with
    | some b => (mapOptionList f as).map (fun bs => b :: bs)
    | none => none

/-- `script_get_variables` over a whole variable table (modelled as an
association list of key/value pairs). -/
def script_get_variables (pool : Pool)
    (tbl : List (List Char × SVal)) : List (List Char × List Char) :=
  tbl.map (fun e => (e.1, script_get_variables_val pool e.2))

/-- `script_set_variables` over a whole snapshot. -/
def script_set_variables (pool : Pool)
    (vars : List (List Char × List Char)) :
    Option (List (List Char × SVal)) :=
  mapOptionList (fun e => (script_set_variables_val pool e.2).map
    (fun v => (e.1, v))) vars

/-! ## Lua values and tables

For the namespace metamethods a value model with real nested tables is
needed.  Keys use Lua's key semantics: strings, numbers and booleans
compare by value, everything else by reference identity (modelled by a
numeric id).  Tables carry a `ro` flag standing for "has been replaced
by the read-only proxy" (an empty table whose metatable routes reads
to the original through `__index` and sends every write to
`script_readonly`, which raises).  Raw fields are an association list;
`lua_rawset` with a nil value removes the key, as in Lua. -/

inductive LKey where
  | nilk : LKey
  | str (s : String) : LKey
  | num (n : ℚ) : LKey
  | boolk (b : Bool) : LKey
  | ref (id : ℕ) : LKey
  deriving DecidableEq, Repr

inductive LVal where
  | nil : LVal
  | num (n : ℚ) : LVal
  | boolv (b : Bool) : LVal
  | str (s : String) : LVal
  | table (ro : Bool) (fields : List (LKey × LVal)) : LVal
  | func (id : ℕ) : LVal
  | udata (id : ℕ) : LVal
  | lightud (id : ℕ) : LVal
  | thread (id : ℕ) : LVal

inductive LType where
  | nil : LType
  | boolean : LType
  | lightuserdata : LType
  | number : LType
  | string : LType
  | table : LType
  | function : LType
  | userdata : LType
  | thread : LType
  deriving DecidableEq, Repr

def LVal.typeOf : LVal → LType
  | .nil => .nil
  | .num _ => .number
  | .boolv _ => .boolean
  | .str _ => .string
  | .table _ _ => .table
  | .func _ => .function
  | .udata _ => .userdata
  | .lightud _ => .lightuserdata
  | .thread _ => .thread

def LVal.isNil : LVal → Bool
  | .nil => true
  | _ => false

def eraseKey : List (LKey × LVal) → LKey → List (LKey × LVal)
  | [], _ => []
  | (k', v') :: rest, k =>
    if k' = k then eraseKey rest k else (k', v') :: eraseKey rest k

def setKey : List (LKey × LVal) → LKey → LVal → List (LKey × LVal)
  | [], k, v => [(k, v)]
  | (k', v') :: rest, k, v =>
    if k' = k then (k, v) :: rest else (k', v') :: setKey rest k v

/-- `lua_rawset`: assigning nil removes the key, otherwise the pair is
stored. -/
def rawsetF (fs : List (LKey × LVal)) (k : LKey) (v : LVal) :
    List (LKey × LVal) :=
  if v.isNil then eraseKey fs k else setKey fs k v

/-- `lua_rawget`: a missing key reads as nil. -/
def rawgetF : List (LKey × LVal) → LKey → LVal
  | [], _ => .nil
  | (k', v') :: rest, k => if k' = k then v' else rawgetF rest k

/-! ## Read-only tables (`script_table_readonly`)

The source walks the table (when `recursive` is set), replaces every
nested table value by its read-only version, and finally replaces the
table itself by the proxy whose `__newindex` is `script_readonly`.
The proxy is the `ro := true` flag here. -/

mutual

def script_table_readonly_rec : LVal → LVal
  | .table _ fs => .table true (script_table_readonly_fields fs)
  | v => v

def script_table_readonly_fields :
    List (LKey × LVal) → List (LKey × LVal)
  | [] => []
  | (k, v) :: rest =>
    (k, script_table_readonly_rec v) :: script_table_readonly_fields rest

end

/-- `script_table_readonly(L, recursive)`: non-recursive calls only
wrap the top table itself (used for the library tables and the API
table); recursive calls (used by `script_globals_set`) also deep-freeze
every nested table. -/
def script_table_readonly (v : LVal) (recursive : Bool) : LVal :=
  if recursive then script_table_readonly_rec v
  else
    match v with
    | .table _ fs => .table true fs
    | v => v

/-- Follow a path of keys through nested tables (raw reads). -/
def getPath : LVal → List LKey → Option LVal
  | v, [] => some v
  | .table _ fs, k :: ks => getPath (rawgetF fs k) ks
  | _, _ :: _ => none

/-- Script-level errors raised by the table metamethods
(`luaL_error`); the long jump happens before any mutation. -/
inductive SErr where
  | badVarKey : SErr
  | badVarType : SErr
  | badPersistentKey : SErr
  | badPersistentType : SErr
  | badGlobalKey : SErr
  | reservedName : SErr
  | redefined : SErr
  | readonly : SErr
  | nonTable : SErr
  deriving DecidableEq, Repr

/-- A Lua assignment `t[k] = x` performed by script code on a table
value: a read-only proxy routes it to `script_readonly`, which raises
the read-only error; a plain table stores raw. -/
def writeTable (v : LVal) (k : LKey) (x : LVal) : Except SErr LVal :=
  match v with
  | .table true _ => .error .readonly
  | .table false fs => .ok (.table false (rawsetF fs k x))
  | _ => .error .nonTable

/-! ## The variable-table metamethods -/

/-- The value types `script_vars_set` accepts:
`LUA_TNIL`, `LUA_TNUMBER`, `LUA_TBOOLEAN`, `LUA_TSTRING`,
`LUA_TUSERDATA`. -/
def vars_type_ok : LType → Bool
  | .nil => true
  | .number => true
  | .boolean => true
  | .string => true
  | .userdata => true
  | _ => false

/-- The value types `script_persistent_set` accepts:
`LUA_TNIL`, `LUA_TNUMBER`, `LUA_TBOOLEAN`, `LUA_TSTRING`. -/
def persistent_type_ok : LType → Bool
  | .nil => true
  | .number => true
  | .boolean => true
  | .string => true
  | _ => false

/-- `__newindex` metamethod for `vars`: string keys only, value type
checked against the allowed set, then a raw store into the backing
registry table.  The result pairs the (possibly updated) backing table
with the raised error, if any; `luaL_error` raises before any
mutation, so the error cases return the table unchanged. -/
def script_vars_set (t : List (LKey × LVal)) (k : LKey) (v : LVal) :
    List (LKey × LVal) × Option SErr :=
  match k with
  | .str _ =>
    if vars_type_ok v.typeOf then (rawsetF t k v, none)
    else (t, some .badVarType)
  | _ => (t, some .badVarKey)

/-- `__newindex` metamethod for `persistent`: as `script_vars_set` with
the smaller allowed set (no userdata). -/
def script_persistent_set (t : List (LKey × LVal)) (k : LKey) (v : LVal) :
    List (LKey × LVal) × Option SErr :=
  match k with
  | .str _ =>
    if persistent_type_ok v.typeOf then (rawsetF t k v, none)
    else (t, some .badPersistentType)
  | _ => (t, some .badPersistentKey)

/-- `__newindex` metamethod for the global proxy during setup: string
keys only, the reserved name `script` rejected, already-bound names
rejected (`lua_rawget != LUA_TNIL`), tables deep-frozen before the raw
store. -/
def script_globals_set (g : List (LKey × LVal)) (k : LKey) (v : LVal) :
    List (LKey × LVal) × Option SErr :=
  match k with
  | .str s =>
    if s = "script" then (g, some .reservedName)
    else if (rawgetF g (.str s)).isNil = false then (g, some .redefined)
    else
      match v with
      | .table ro fs =>
        (rawsetF g (.str s)
          (script_table_readonly (.table ro fs) true), none)
      | _ => (rawsetF g (.str s) v, none)
  | _ => (g, some .badGlobalKey)

def LKey.isStr : LKey → Bool
  | .str _ => true
  | _ => false

/-! ## Engine state, loading, and the script entity's use callback

The scripting engine's mutable state: the loaded flag, the string
pool's index count, the trigger-context stack (a Lua array-table in
the registry, here a list whose last element is the top), the three
variable tables, a log of diagnostics, and a counter of script-function
invocations (to observe that nothing is called when the script is not
loaded). -/

structure Frame where
  selfId : ℕ
  activatorId : ℕ
  deriving DecidableEq, Repr

inductive LogMsg where
  | notLoaded : LogMsg
  | noFunctionSet : LogMsg
  | missingFunction (name : String) : LogMsg
  | nonFunction (name : String) : LogMsg
  | runtimeError (name : String) : LogMsg
  | loadError (e : String) : LogMsg
  | execError (e : String) : LogMsg
  | loadedOk : LogMsg
  deriving DecidableEq, Repr

structure ScriptState where
  loaded : Bool
  stringpool_count : ℕ
  triggerstack : List Frame
  vars : List (LKey × LVal)
  globals : List (LKey × LVal)
  persistent : List (LKey × LVal)
  log : List LogMsg
  calls : ℕ

/-- The API table built by `script_init` and stored in the registry;
its entries are C functions and the frozen library tables, which play
no role in the claims — only its identity and read-only-ness do. -/
def script_api : LVal := .table true []

/-- The top of the trigger-context stack (`luaL_len` + `lua_geti`). -/
def currentFrame (st : ScriptState) : Option Frame :=
  st.triggerstack.getLast?

/-- The push performed by `script_use` before calling the script
function: one frame holding this invocation's (self, activator). -/
def script_use_push (st : ScriptState) (selfId activatorId : ℕ) :
    ScriptState :=
  { st with
    triggerstack := st.triggerstack ++ [⟨selfId, activatorId⟩]
    calls := st.calls + 1 }

mutual

/-- How `lua_getglobal(self->script_function)` resolved, together with
the function body when it is a function.  `noname` is a null
`script_function` field. -/
inductive UseFn where
  | noname : UseFn
  | missing (name : String) : UseFn
  | nonfunction (name : String) : UseFn
  | body (name : String) (s : Script) : UseFn

/-- What a script function body does, as far as the engine state is
concerned: nothing, raise a runtime error, sequence, or synchronously
trigger another (or the same) script entity's use callback. -/
inductive Script where
  | nop : Script
  | fail : Script
  | seq (a b : Script) : Script
  | invoke (selfId otherId activatorId : ℕ) (fn : UseFn) : Script

end

mutual

/-- Run a script function body.  The boolean is the Lua error flag; a
`seq` stops at the first error (the error propagates to the enclosing
`lua_pcall`); an `invoke` goes through `script_use`, whose own `pcall`
swallows the nested error. -/
def runScript : Script → ScriptState → ScriptState × Bool
  | .nop, st => (st, false)
  | .fail, st => (st, true)
  | .seq a b, st =>
    match runScript a st with
    | (st1, true) => (st1, true)
    | (st1, false) => runScript b st1
  | .invoke selfId otherId activatorId fn, st =>
    (script_use selfId otherId activatorId fn st, false)

/-- The script entity's use callback.  Guards: the loaded flag, the
`script_function` field, the global lookup.  On the function path it
pushes one trigger-context frame at index `n + 1` (`n` read before the
call), runs the body under `lua_pcall` (logging and swallowing a
runtime error), and then stores nil at index `n + 1`, which truncates
the stack back to `n` entries. -/
def script_use (selfId otherId activatorId : ℕ) (fn : UseFn)
    (st : ScriptState) : ScriptState :=
  if st.loaded = false then { st with log := st.log ++ [.notLoaded] }
  else
    match fn with
    | .noname => { st with log := st.log ++ [.noFunctionSet] }
    | .missing n => { st with log := st.log ++ [.missingFunction n] }
    | .nonfunction n => { st with log := st.log ++ [.nonFunction n] }
    | .body n s =>
      let res := runScript s (script_use_push st selfId activatorId)
      let st2 := if res.2 then
          { res.1 with log := res.1.log ++ [.runtimeError n] }
        else res.1
      { st2 with
        triggerstack := st2.triggerstack.take st.triggerstack.length }

end
/-! ## Initialization and level loading -/

/-- `script_init`: engine-lifetime initialization at new game — fresh
string pool, fresh Lua state, fresh (empty) persistent table. -/
def script_init : ScriptState :=
  { loaded := false
    stringpool_count := 0
    triggerstack := []
    vars := []
    globals := []
    persistent := []
    log := []
    calls := 0 }

/-- `script_load`: clears the loaded flag, resets the string pool's
index, replaces the trigger stack, `vars` and globals (re-binding the
API table under `script`), then attempts `luaL_loadfile` and
`lua_pcall`; a failure of either logs and returns with the loaded flag
still false.  The two `Except` arguments stand for the outcomes of the
file load and of the execution of the level script's source. -/
def script_load (st : ScriptState)
    (loadRes execRes : Except String Unit) : ScriptState :=
  let st1 : ScriptState :=
    { st with
      loaded := false
      stringpool_count := 0
      triggerstack := []
      vars := []
      globals := [(.str "script", script_api)] }
  match loadRes with
  | .error e => { st1 with log := st1.log ++ [.loadError e] }
  | .ok _ =>
    match execRes with
    | .error e => { st1 with log := st1.log ++ [.execError e] }
    | .ok _ => { st1 with loaded := true, log := st1.log ++ [.loadedOk] }

/-! ## The `pick` batch helper

`irandom` is the engine collaborator (`q_std.h`): a uniform random
integer in the half-open range `[0, max_exclusive)`, returning 0 for a
non-positive bound.  The half-open contract is pinned inside this
repository by `G_PickTarget`, which indexes `choice[irandom(num_choices)]`
into an array holding exactly `num_choices` entries.  The random draw
is the parameter `r`; as `r` ranges over ℕ, `r % k` ranges over
exactly `[0, k)`. -/
def irandom (k : ℤ) (r : ℕ) : ℤ :=
  if k ≤ 0 then 0 else (r : ℤ) % k

/-- `script_pick`: nil for an empty list, otherwise the element at the
1-based Lua index `1 + irandom(n - 1)` (`lua_rawgeti`); Lua index `i`
is `l.get? (i - 1)` here. -/
def script_pick (l : List α) (r : ℕ) : Option α :=
  let n := l.length
  if n = 0 then none
  else l.get? ((1 + irandom ((n : ℤ) - 1) r) - 1).toNat

/-- The generation counter never decreases along slot transitions. -/
theorem SlotReaches.count_mono {s s' : Slot} (h : SlotReaches s s') :
    s.spawn_count ≤ s'.spawn_count := by
  induction h with
  | refl => exact le_refl _
  | tail rest step ih =>
    cases step with
    | free h' => dsimp only; omega
    | reuse h' => dsimp only; exact ih

/-- From an in-use slot, any reachable state with the same generation
counter is still in use (the first transition out of an in-use slot is
a free, which bumps the counter for good). -/
theorem SlotReaches.inuse_of_count_eq {s s' : Slot} (h : SlotReaches s s')
    (hu : s.inuse = true) (hc : s'.spawn_count = s.spawn_count) :
    s'.inuse = true := by
  rcases Relation.ReflTransGen.cases_head h with rfl | ⟨b, step, rest⟩
  · exact hu
  · cases step with
    | free h' =>
      have hm : s.spawn_count + 1 ≤ s'.spawn_count :=
        SlotReaches.count_mono rest
      exact absurd hc (by omega)
    | reuse h' => simp [h'] at hu

/-- From an in-use slot, reaching a freed state strictly increases the
generation counter. -/
theorem SlotReaches.count_lt_of_freed {s s' : Slot} (h : SlotReaches s s')
    (hu : s.inuse = true) (hf : s'.inuse = false) :
    s.spawn_count < s'.spawn_count := by
  rcases Relation.ReflTransGen.cases_head h with rfl | ⟨b, step, rest⟩
  · simp [hu] at hf
  · cases step with
    | free h' =>
      have hm : s.spawn_count + 1 ≤ s'.spawn_count :=
        SlotReaches.count_mono rest
      omega
    | reuse h' => simp [h'] at hu

/-- Claim C1: a handle wrapped while the slot is in use is valid exactly
when the slot is still in use with the same generation counter; once the
slot is freed every previously wrapped handle is invalid forever, even
across reuse; and a handle wrapped on an already-free slot stores the
pre-decremented stamp and is invalid in every reachable state. -/
theorem c1_entity_handle_validity :
    (∀ s s' : Slot, s.inuse = true → SlotReaches s s' →
      (script_check_entity (script_push_entity s) s' = true ↔
        (s'.inuse = true ∧ s'.spawn_count = script_push_entity s))) ∧
    (∀ s s1 s2 : Slot, s.inuse = true → SlotReaches s s1 →
      s1.inuse = false → SlotReaches s1 s2 →
      script_check_entity (script_push_entity s) s2 = false) ∧
    (∀ s s' : Slot, s.inuse = false →
      script_push_entity s = s.spawn_count - 1 ∧
      (SlotReaches s s' →
        script_check_entity (script_push_entity s) s' = false)) := by
  refine ⟨?_, ?_, ?_⟩
  · intro s s' hu hr
    have hst : script_push_entity s = s.spawn_count := by
      simp [script_push_entity, hu]
    rw [hst]
    constructor
    · intro hchk
      have heq : s'.spawn_count = s.spawn_count := by
        simpa [script_check_entity] using hchk
      exact ⟨hr.inuse_of_count_eq hu heq, heq⟩
    · intro ⟨_, heq⟩
      simp [script_check_entity, heq]
  · intro s s1 s2 hu hr1 hf hr2
    have hst : script_push_entity s = s.spawn_count := by
      simp [script_push_entity, hu]
    have h1 : s.spawn_count < s1.spawn_count := hr1.count_lt_of_freed hu hf
    have h2 : s1.spawn_count ≤ s2.spawn_count := hr2.count_mono
    rw [hst]
    simp only [script_check_entity, beq_eq_false_iff_ne, ne_eq]
    omega
  · intro s s' hf
    have hst : script_push_entity s = s.spawn_count - 1 := by
      simp [script_push_entity, hf]
    refine ⟨hst, fun hr => ?_⟩
    have h2 : s.spawn_count ≤ s'.spawn_count := hr.count_mono
    rw [hst]
    simp only [script_check_entity, beq_eq_false_iff_ne, ne_eq]
    omega

/-- Witness for C1: wrap while in use, free the slot, reuse it — the
handle reports invalid; and a handle wrapped on the freed slot is also
invalid after the reuse. -/
theorem c1_entity_handle_validity_witness :
    script_check_entity (script_push_entity ⟨true, 0⟩) ⟨true, 1⟩ = false ∧
    script_check_entity (script_push_entity ⟨false, 1⟩) ⟨true, 1⟩ = false := by
  have hstep1 : SlotStep ⟨true, 0⟩ ⟨false, 1⟩ := by
    have h := SlotStep.free ⟨true, 0⟩ rfl
    norm_num at h
    exact h
  have hstep2 : SlotStep ⟨false, 1⟩ ⟨true, 1⟩ := SlotStep.reuse ⟨false, 1⟩ rfl
  exact ⟨c1_entity_handle_validity.2.1 ⟨true, 0⟩ ⟨false, 1⟩ ⟨true, 1⟩ rfl
      (Relation.ReflTransGen.single hstep1) rfl
      (Relation.ReflTransGen.single hstep2),
    (c1_entity_handle_validity.2.2 ⟨false, 1⟩ ⟨true, 1⟩ rfl).2
      (Relation.ReflTransGen.single hstep2)⟩

/-- Claim C2: triggering the entity that is the current `self` with no
delay (absent, nil, or non-positive argument) raises the dedicated
self-trigger error and never reaches the use callback; with a positive
delay it succeeds by scheduling a `DelayedTrigger` helper strictly in
the future. -/
theorem c2_self_trigger_guard (pool : Pool) (hasUse : ℕ → Bool)
    (time : ℚ) (h : EntHandle) (selfId activatorId : ℕ)
    (hvalid : script_handle_ok pool h = true)
    (huse : hasUse h.idx = true)
    (hself : h.idx = selfId) :
    script_entity_trigger pool hasUse time h .absent selfId activatorId =
      .error .selfNoDelay ∧
    script_entity_trigger pool hasUse time h .nil selfId activatorId =
      .error .selfNoDelay ∧
    (∀ x : ℚ, x ≤ 0 →
      script_entity_trigger pool hasUse time h (.num x) selfId activatorId =
        .error .selfNoDelay) ∧
    (∀ x : ℚ, 0 < x →
      script_entity_trigger pool hasUse time h (.num x) selfId activatorId =
        .ok (.spawnDelayed "DelayedTrigger" (time + x) h.idx
          (pool h.idx).spawn_count activatorId) ∧
      time < time + x) := by
  subst hself
  have hchk : script_check_entity h.spawn_count (pool h.idx) = true := hvalid
  refine ⟨?_, ?_, ?_, ?_⟩
  · norm_num [script_entity_trigger, hchk, huse]
  · norm_num [script_entity_trigger, hchk, huse]
  · intro x hx
    simp [script_entity_trigger, hchk, huse, not_lt.mpr hx]
  · intro x hx
    refine ⟨by simp [script_entity_trigger, hchk, huse, hx], by linarith⟩

/-- Witness for C2: a valid self-handle, no delay, errors; delay 2
schedules a `DelayedTrigger`. -/
theorem c2_self_trigger_guard_witness :
    script_entity_trigger (fun _ => ⟨true, 0⟩) (fun _ => true) 0
      ⟨3, 0⟩ .absent 3 7 = .error .selfNoDelay ∧
    script_entity_trigger (fun _ => ⟨true, 0⟩) (fun _ => true) 0
      ⟨3, 0⟩ (.num 2) 3 7 =
      .ok (.spawnDelayed "DelayedTrigger" 2 3 0 7) := by
  have h := c2_self_trigger_guard (fun _ => ⟨true, 0⟩) (fun _ => true) 0
    ⟨3, 0⟩ 3 7 (by decide) rfl rfl
  refine ⟨h.1, ?_⟩
  have h2 := (h.2.2.2 2 (by norm_num)).1
  simpa using h2

theorem digitChar_spec (d : ℕ) (hd : d < 10) :
    (digitChar d).isDigit = true ∧ (digitChar d).toNat - 48 = d ∧
    digitChar d ≠ '-' := by
  interval_cases d <;> exact ⟨by decide, by decide, by decide⟩

theorem natToDigitsRev_digits (n : ℕ) :
    ∀ c ∈ natToDigitsRev n, c.isDigit = true := by
  induction n using Nat.strong_induction_on with
  | _ n ih =>
    rw [natToDigitsRev]
    split
    · intro c hc
      rcases List.mem_singleton.mp hc with rfl
      exact (digitChar_spec n (by omega)).1
    · intro c hc
      rcases List.mem_cons.mp hc with rfl | hc'
      · exact (digitChar_spec (n % 10) (by omega)).1
      · exact ih (n / 10) (Nat.div_lt_self (by omega) (by omega)) c hc'

theorem natToDigitsRev_ne_nil (n : ℕ) : natToDigitsRev n ≠ [] := by
  rw [natToDigitsRev]
  split <;> simp

theorem parseDigitsAux_append (l1 l2 : List Char) : ∀ acc : ℕ,
    parseDigitsAux acc (l1 ++ l2) =
      (parseDigitsAux acc l1).bind (fun a => parseDigitsAux a l2) := by
  induction l1 with
  | nil => intro acc; simp [parseDigitsAux]
  | cons c cs ih =>
    intro acc
    by_cases hc : c.isDigit
    · simp only [List.cons_append, parseDigitsAux, hc, if_true]
      exact ih _
    · simp [parseDigitsAux, hc]

theorem parseDigitsAux_natToChars (n : ℕ) : ∀ acc : ℕ,
    parseDigitsAux acc (natToChars n) =
      some (acc * 10 ^ (natToDigitsRev n).length + n) := by
  induction n using Nat.strong_induction_on with
  | _ n ih =>
    intro acc
    by_cases hlt : n < 10
    · have h1 : natToDigitsRev n = [digitChar n] := by
        rw [natToDigitsRev]
        exact dif_pos hlt
      obtain ⟨hdig, hval, _⟩ := digitChar_spec n hlt
      rw [natToChars, h1]
      simp [parseDigitsAux, hdig, hval]
    · have h1 : natToDigitsRev n =
          digitChar (n % 10) :: natToDigitsRev (n / 10) := by
        conv_lhs => rw [natToDigitsRev]
        rw [dif_neg hlt]
      obtain ⟨hdig, hval, _⟩ := digitChar_spec (n % 10) (by omega)
      rw [natToChars, h1, List.reverse_cons, parseDigitsAux_append]
      rw [show (natToDigitsRev (n / 10)).reverse = natToChars (n / 10) from rfl]
      rw [ih (n / 10) (Nat.div_lt_self (by omega) (by omega)) acc]
      simp only [Option.some_bind, parseDigitsAux, hdig, if_true, hval]
      simp only [List.length_cons]
      congr 1
      have hdm : n / 10 * 10 + n % 10 = n := by omega
      rw [pow_succ]
      calc (acc * 10 ^ (natToDigitsRev (n / 10)).length + n / 10) * 10 + n % 10
          = acc * (10 ^ (natToDigitsRev (n / 10)).length * 10) +
              (n / 10 * 10 + n % 10) := by ring
        _ = acc * (10 ^ (natToDigitsRev (n / 10)).length * 10) + n := by
              rw [hdm]

theorem parseNat_natToChars (n : ℕ) : parseNat (natToChars n) = some n := by
  have hne : natToChars n ≠ [] := by
    simp [natToChars, natToDigitsRev_ne_nil]
  rw [parseNat, if_neg (by simpa [List.isEmpty_iff] using hne)]
  simpa using parseDigitsAux_natToChars n 0

theorem natToChars_head_digit (n : ℕ) (c : Char) (rest : List Char)
    (h : natToChars n = c :: rest) : c.isDigit = true := by
  have hmem : c ∈ natToDigitsRev n := by
    have : c ∈ natToChars n := by rw [h]; exact List.mem_cons_self c rest
    simpa [natToChars] using this
  exact natToDigitsRev_digits n c hmem

theorem parseInt_natToChars (n : ℕ) : parseInt (natToChars n) = some (n : ℤ) := by
  cases hcs : natToChars n with
  | nil =>
    exfalso
    rw [natToChars, List.reverse_eq_nil_iff] at hcs
    exact natToDigitsRev_ne_nil n hcs
  | cons c rest =>
    have hdig := natToChars_head_digit n c rest hcs
    have hc : c ≠ '-' := by
      intro h; rw [h] at hdig; exact absurd hdig (by decide)
    simp only [parseInt, hc, if_false]
    rw [← hcs, parseNat_natToChars]
    simp

theorem parseInt_intToChars (i : ℤ) : parseInt (intToChars i) = some i := by
  by_cases hi : i < 0
  · rw [intToChars, if_pos hi]
    have hstep : parseInt ('-' :: natToChars i.natAbs) =
        (parseNat (natToChars i.natAbs)).map (fun n => -(n : ℤ)) := by
      simp [parseInt]
    rw [hstep, parseNat_natToChars]
    show some (-(i.natAbs : ℤ)) = some i
    congr 1
    omega
  · rw [intToChars, if_neg hi, parseInt_natToChars]
    congr 1
    omega

theorem splitAux_tagged (tag : List Char) (val : List Char)
    (h : ':' ∉ tag) : splitAux (tag ++ ':' :: val) = some (tag, val) := by
  induction tag with
  | nil => simp [splitAux]
  | cons c rest ih =>
    have hc : c ≠ ':' := fun hh => h (hh ▸ List.mem_cons_self c rest)
    have hrest : ':' ∉ rest := fun hh => h (List.mem_cons_of_mem c hh)
    simp [splitAux, hc, ih hrest]

theorem splitFirstColon_tagged (tag : List Char) (val : List Char)
    (h : ':' ∉ tag) : splitFirstColon (tag ++ ':' :: val) = (tag, val) := by
  rw [splitFirstColon, splitAux_tagged tag val h]

theorem roundtrip_num (pool : Pool) (n : ℤ) :
    script_set_variables_val pool (script_get_variables_val pool (.num n)) =
      some (.num n) := by
  have hsplit : splitFirstColon
      ('n' :: 'u' :: 'm' :: 'b' :: 'e' :: 'r' :: ':' :: intToChars n) =
      (['n', 'u', 'm', 'b', 'e', 'r'], intToChars n) := by
    simpa using splitFirstColon_tagged "number".data (intToChars n) (by decide)
  simp [script_set_variables_val, script_get_variables_val, hsplit,
    parseInt_intToChars]

theorem roundtrip_bool (pool : Pool) (b : Bool) :
    script_set_variables_val pool (script_get_variables_val pool (.boolv b)) =
      some (.boolv b) := by
  cases b
  · have hsplit : splitFirstColon
        ['b', 'o', 'o', 'l', 'e', 'a', 'n', ':', 'f', 'a', 'l', 's', 'e'] =
        (['b', 'o', 'o', 'l', 'e', 'a', 'n'], ['f', 'a', 'l', 's', 'e']) := by
      decide
    have hne : ¬(['b', 'o', 'o', 'l', 'e', 'a', 'n'] =
        ['n', 'u', 'm', 'b', 'e', 'r']) := by decide
    have hfa : ¬(['f', 'a', 'l', 's', 'e'] = ['t', 'r', 'u', 'e']) := by decide
    simp [script_set_variables_val, script_get_variables_val, hsplit, hne, hfa]
  · have hsplit : splitFirstColon
        ['b', 'o', 'o', 'l', 'e', 'a', 'n', ':', 't', 'r', 'u', 'e'] =
        (['b', 'o', 'o', 'l', 'e', 'a', 'n'], ['t', 'r', 'u', 'e']) := by
      decide
    have hne : ¬(['b', 'o', 'o', 'l', 'e', 'a', 'n'] =
        ['n', 'u', 'm', 'b', 'e', 'r']) := by decide
    simp [script_set_variables_val, script_get_variables_val, hsplit, hne]

theorem roundtrip_str (pool : Pool) (s : List Char) :
    script_set_variables_val pool (script_get_variables_val pool (.str s)) =
      some (.str s) := by
  have hsplit : splitFirstColon
      ('s' :: 't' :: 'r' :: 'i' :: 'n' :: 'g' :: ':' :: s) =
      (['s', 't', 'r', 'i', 'n', 'g'], s) := by
    simpa using splitFirstColon_tagged "string".data s (by decide)
  have hne1 : ¬(['s', 't', 'r', 'i', 'n', 'g'] =
      ['n', 'u', 'm', 'b', 'e', 'r']) := by decide
  have hne2 : ¬(['s', 't', 'r', 'i', 'n', 'g'] =
      ['b', 'o', 'o', 'l', 'e', 'a', 'n']) := by decide
  have hne3 : ¬(['s', 't', 'r', 'i', 'n', 'g'] =
      ['e', 'n', 't', 'i', 't', 'y']) := by decide
  simp [script_set_variables_val, script_get_variables_val, hsplit,
    hne1, hne2, hne3]

theorem roundtrip_ent_valid (pool : Pool) (h : EntHandle)
    (hu : (pool h.idx).inuse = true)
    (hc : (pool h.idx).spawn_count = h.spawn_count) :
    script_get_variables_val pool (.ent h) =
      "entity".data ++ ':' :: natToChars h.idx ∧
    script_set_variables_val pool (script_get_variables_val pool (.ent h)) =
      some (.ent h) := by
  obtain ⟨i, st⟩ := h
  simp only at hu hc
  have henc : script_get_variables_val pool (.ent ⟨i, st⟩) =
      "entity".data ++ ':' :: natToChars i := by
    simp [script_get_variables_val, hu, hc]
  refine ⟨henc, ?_⟩
  rw [henc]
  have hsplit : splitFirstColon
      ('e' :: 'n' :: 't' :: 'i' :: 't' :: 'y' :: ':' :: natToChars i) =
      (['e', 'n', 't', 'i', 't', 'y'], natToChars i) := by
    simpa using splitFirstColon_tagged "entity".data (natToChars i) (by decide)
  have hne1 : ¬(['e', 'n', 't', 'i', 't', 'y'] =
      ['n', 'u', 'm', 'b', 'e', 'r']) := by decide
  have hne2 : ¬(['e', 'n', 't', 'i', 't', 'y'] =
      ['b', 'o', 'o', 'l', 'e', 'a', 'n']) := by decide
  simp [script_set_variables_val, hsplit, hne1, hne2, parseInt_natToChars,
    script_wrap_handle, script_push_entity, hu, hc]

theorem roundtrip_ent_invalid (pool : Pool) (h : EntHandle)
    (hinv : ¬((pool h.idx).inuse = true ∧
      (pool h.idx).spawn_count = h.spawn_count)) :
    script_get_variables_val pool (.ent h) =
      "entity".data ++ ':' :: "-1".data ∧
    script_set_variables_val pool (script_get_variables_val pool (.ent h)) =
      some (.ent ⟨0, -1⟩) := by
  have hcond : ¬(pool h.idx).inuse ∨
      (pool h.idx).spawn_count ≠ h.spawn_count := by
    by_cases h1 : (pool h.idx).inuse = true
    · exact Or.inr (fun hh => hinv ⟨h1, hh⟩)
    · exact Or.inl (by simpa using h1)
  have henc : script_get_variables_val pool (.ent h) =
      "entity".data ++ ':' :: "-1".data := by
    simp only [script_get_variables_val]
    rw [if_pos hcond]
  refine ⟨henc, ?_⟩
  rw [henc]
  have hsplit : splitFirstColon
      ['e', 'n', 't', 'i', 't', 'y', ':', '-', '1'] =
      (['e', 'n', 't', 'i', 't', 'y'], ['-', '1']) := by decide
  have hne1 : ¬(['e', 'n', 't', 'i', 't', 'y'] =
      ['n', 'u', 'm', 'b', 'e', 'r']) := by decide
  have hne2 : ¬(['e', 'n', 't', 'i', 't', 'y'] =
      ['b', 'o', 'o', 'l', 'e', 'a', 'n']) := by decide
  have hparse : parseInt ['-', '1'] = some (-1) := by decide
  simp [script_set_variables_val, hsplit, hne1, hne2, hparse]

/-- Claim C3: restoring the snapshot of a variable table reproduces an
equivalent value under the same key for every supported value type:
integers exactly, booleans and strings (colons included) to equal
values; a handle valid at snapshot time is encoded as its slot index
and restores to the same handle; an invalid handle is encoded as `-1`
and restores to the slot-0 sentinel with stamp `-1`, which still
reports invalid (slot 0, worldspawn, has a non-negative generation). -/
theorem c3_serialization_roundtrip (pool : Pool) (k : List Char)
    (h0 : 0 ≤ (pool 0).spawn_count) :
    (∀ n : ℤ, script_set_variables pool
      (script_get_variables pool [(k, .num n)]) = some [(k, .num n)]) ∧
    (∀ b : Bool, script_set_variables pool
      (script_get_variables pool [(k, .boolv b)]) = some [(k, .boolv b)]) ∧
    (∀ s : List Char, script_set_variables pool
      (script_get_variables pool [(k, .str s)]) = some [(k, .str s)]) ∧
    (∀ h : EntHandle, (pool h.idx).inuse = true →
      (pool h.idx).spawn_count = h.spawn_count →
      script_get_variables_val pool (.ent h) =
        "entity".data ++ ':' :: natToChars h.idx ∧
      script_set_variables pool
        (script_get_variables pool [(k, .ent h)]) = some [(k, .ent h)]) ∧
    (∀ h : EntHandle, ¬((pool h.idx).inuse = true ∧
      (pool h.idx).spawn_count = h.spawn_count) →
      script_get_variables_val pool (.ent h) =
        "entity".data ++ ':' :: "-1".data ∧
      script_set_variables pool
        (script_get_variables pool [(k, .ent h)]) =
          some [(k, .ent ⟨0, -1⟩)] ∧
      script_handle_ok pool ⟨0, -1⟩ = false) := by
  have hsingle : ∀ (v w : SVal),
      script_set_variables_val pool (script_get_variables_val pool v) =
        some w →
      script_set_variables pool (script_get_variables pool [(k, v)]) =
        some [(k, w)] := by
    intro v w hvw
    simp [script_set_variables, script_get_variables, mapOptionList, hvw]
  refine ⟨?_, ?_, ?_, ?_, ?_⟩
  · intro n; exact hsingle _ _ (roundtrip_num pool n)
  · intro b; exact hsingle _ _ (roundtrip_bool pool b)
  · intro s; exact hsingle _ _ (roundtrip_str pool s)
  · intro h hu hc
    obtain ⟨henc, hval⟩ := roundtrip_ent_valid pool h hu hc
    exact ⟨henc, hsingle _ _ hval⟩
  · intro h hinv
    obtain ⟨henc, hval⟩ := roundtrip_ent_invalid pool h hinv
    refine ⟨henc, hsingle _ _ hval, ?_⟩
    have hne : (pool 0).spawn_count ≠ (-1 : ℤ) := by omega
    simpa [script_handle_ok, script_check_entity] using hne

/-- Witness for C3: a concrete pool (every slot in use, generation 0);
the integer 42 and a stale handle round-trip as claimed. -/
theorem c3_serialization_roundtrip_witness :
    0 ≤ (poolW 0).spawn_count ∧
    script_set_variables poolW
      (script_get_variables poolW [(['k'], .num 42)]) =
      some [(['k'], .num 42)] ∧
    script_set_variables poolW
      (script_get_variables poolW [(['k'], .ent ⟨5, 7⟩)]) =
      some [(['k'], .ent ⟨0, -1⟩)] :=
  ⟨by decide,
   (c3_serialization_roundtrip poolW ['k'] (by decide)).1 42,
   ((c3_serialization_roundtrip poolW ['k'] (by decide)).2.2.2.2
     ⟨5, 7⟩ (by decide)).2.1⟩

theorem rawgetF_eraseKey (fs : List (LKey × LVal)) (k : LKey) :
    rawgetF (eraseKey fs k) k = .nil := by
  induction fs with
  | nil => rfl
  | cons e rest ih =>
    obtain ⟨k', v'⟩ := e
    by_cases hk : k' = k
    · simp [eraseKey, hk, ih]
    · simp [eraseKey, rawgetF, hk, ih]

theorem rawgetF_setKey (fs : List (LKey × LVal)) (k : LKey) (v : LVal) :
    rawgetF (setKey fs k v) k = v := by
  induction fs with
  | nil => simp [setKey, rawgetF]
  | cons e rest ih =>
    obtain ⟨k', v'⟩ := e
    by_cases hk : k' = k
    · simp [setKey, hk, rawgetF]
    · simp [setKey, rawgetF, hk, ih]

theorem rawgetF_rawsetF (fs : List (LKey × LVal)) (k : LKey) (v : LVal) :
    rawgetF (rawsetF fs k v) k = v := by
  rw [rawsetF]
  cases v <;> simp [LVal.isNil, rawgetF_eraseKey, rawgetF_setKey]

theorem rawgetF_readonly_fields (fs : List (LKey × LVal)) (k : LKey) :
    rawgetF (script_table_readonly_fields fs) k =
      script_table_readonly_rec (rawgetF fs k) := by
  induction fs with
  | nil => simp [script_table_readonly_fields, rawgetF,
      script_table_readonly_rec]
  | cons e rest ih =>
    obtain ⟨k', v'⟩ := e
    by_cases hk : k' = k
    · simp [script_table_readonly_fields, rawgetF, hk]
    · simp [script_table_readonly_fields, rawgetF, hk, ih]

theorem readonly_rec_path (p : List LKey) : ∀ (v : LVal) (ro : Bool)
    (fs : List (LKey × LVal)),
    getPath (script_table_readonly_rec v) p = some (.table ro fs) →
    ro = true := by
  induction p with
  | nil =>
    intro v ro fs h
    cases v <;> simp [script_table_readonly_rec, getPath] at h
    · exact h.1
  | cons k ks ih =>
    intro v ro fs h
    cases v with
    | table b fs0 =>
      rw [script_table_readonly_rec] at h
      rw [getPath, rawgetF_readonly_fields] at h
      exact ih (rawgetF fs0 k) ro fs h
    | _ => simp [script_table_readonly_rec, getPath] at h

/-- Claim C7: deep freeze — every table reachable (at any nesting
depth) inside a value frozen by `script_table_readonly(recursive)` is
a read-only proxy, so any script write into it raises the read-only
error; and the same holds for any read-only proxy (in particular the
global-namespace proxy installed after a successful load). -/
theorem c7_deep_freeze :
    (∀ (v : LVal) (p : List LKey) (ro : Bool) (fs : List (LKey × LVal))
      (k : LKey) (x : LVal),
      getPath (script_table_readonly v true) p = some (.table ro fs) →
      writeTable (.table ro fs) k x = .error .readonly) ∧
    (∀ (fs : List (LKey × LVal)) (k : LKey) (x : LVal),
      writeTable (.table true fs) k x = .error .readonly) := by
  constructor
  · intro v p ro fs k x h
    rw [show script_table_readonly v true = script_table_readonly_rec v
      from if_pos rfl] at h
    have hro : ro = true := readonly_rec_path p v ro fs h
    subst hro
    rfl
  · intro fs k x
    rfl

/-- Witness for C7: freezing a table containing a nested table makes
the nested table reject writes. -/
theorem c7_deep_freeze_witness :
    getPath (script_table_readonly
        (.table false [(.str "a", .table false [])]) true)
      [.str "a"] = some (.table true []) ∧
    writeTable (.table true []) (.str "b") (.num 1) =
      .error .readonly := by
  have hpath : getPath (script_table_readonly
      (.table false [(.str "a", .table false [])]) true)
      [.str "a"] = some (.table true []) := by
    simp [script_table_readonly, script_table_readonly_rec,
      script_table_readonly_fields, getPath, rawgetF]
  exact ⟨hpath, c7_deep_freeze.1 (.table false [(.str "a", .table false [])])
    [.str "a"] true [] (.str "b") (.num 1) hpath⟩

theorem readonly_isNil (v : LVal) :
    (script_table_readonly v true).isNil = v.isNil := by
  cases v <;>
    simp [script_table_readonly, script_table_readonly_rec, LVal.isNil]

theorem script_globals_set_reserved (g : List (LKey × LVal)) (v : LVal) :
    script_globals_set g (.str "script") v = (g, some .reservedName) := by
  simp [script_globals_set]

theorem script_globals_set_fresh (g : List (LKey × LVal)) (s : String)
    (v : LVal) (hs : s ≠ "script")
    (hnil : (rawgetF g (.str s)).isNil = true) :
    script_globals_set g (.str s) v =
      (rawsetF g (.str s) (script_table_readonly v true), none) := by
  cases v <;>
    simp [script_globals_set, hs, hnil, script_table_readonly,
      script_table_readonly_rec]

theorem script_globals_set_dup (g : List (LKey × LVal)) (s : String)
    (v : LVal) (hs : s ≠ "script")
    (hnn : (rawgetF g (.str s)).isNil = false) :
    script_globals_set g (.str s) v = (g, some .redefined) := by
  simp [script_globals_set, hs, hnn]

/-- Claim C5: a write to `vars` succeeds exactly for a string key and a
value of type nil, number, boolean, string or userdata; a write to
`persistent` succeeds exactly for a string key and a value of type nil,
number, boolean or string; a successful write is immediately readable
back under the same key, and an erroring write leaves the backing table
unchanged. -/
theorem c5_variable_type_gating :
    (∀ (t : List (LKey × LVal)) (k : LKey) (v : LVal),
      ((script_vars_set t k v).2 = none ↔
        (k.isStr = true ∧ vars_type_ok v.typeOf = true)) ∧
      ((script_vars_set t k v).2 = none →
        rawgetF (script_vars_set t k v).1 k = v) ∧
      ((script_vars_set t k v).2 ≠ none →
        (script_vars_set t k v).1 = t)) ∧
    (∀ (t : List (LKey × LVal)) (k : LKey) (v : LVal),
      ((script_persistent_set t k v).2 = none ↔
        (k.isStr = true ∧ persistent_type_ok v.typeOf = true)) ∧
      ((script_persistent_set t k v).2 = none →
        rawgetF (script_persistent_set t k v).1 k = v) ∧
      ((script_persistent_set t k v).2 ≠ none →
        (script_persistent_set t k v).1 = t)) := by
  constructor
  · intro t k v
    refine ⟨?_, ?_, ?_⟩
    · cases k <;> by_cases hv : vars_type_ok v.typeOf = true <;>
        simp [script_vars_set, LKey.isStr, hv]
    · intro hn
      cases k with
      | str s =>
        by_cases hv : vars_type_ok v.typeOf = true
        · simp [script_vars_set, hv, rawgetF_rawsetF]
        · simp [script_vars_set, hv] at hn
      | _ => simp [script_vars_set] at hn
    · cases k with
      | str s =>
        by_cases hv : vars_type_ok v.typeOf = true
        · intro hne; exact absurd (by simp [script_vars_set, hv]) hne
        · intro _; simp [script_vars_set, hv]
      | _ => intro _; simp [script_vars_set]
  · intro t k v
    refine ⟨?_, ?_, ?_⟩
    · cases k <;> by_cases hv : persistent_type_ok v.typeOf = true <;>
        simp [script_persistent_set, LKey.isStr, hv]
    · intro hn
      cases k with
      | str s =>
        by_cases hv : persistent_type_ok v.typeOf = true
        · simp [script_persistent_set, hv, rawgetF_rawsetF]
        · simp [script_persistent_set, hv] at hn
      | _ => simp [script_persistent_set] at hn
    · cases k with
      | str s =>
        by_cases hv : persistent_type_ok v.typeOf = true
        · intro hne; exact absurd (by simp [script_persistent_set, hv]) hne
        · intro _; simp [script_persistent_set, hv]
      | _ => intro _; simp [script_persistent_set]

/-- Witness for C5: a number is stored and read back in `vars`; a
function is rejected leaving `vars` unchanged; a userdata (entity
handle) is rejected by `persistent`. -/
theorem c5_variable_type_gating_witness :
    rawgetF (script_vars_set [] (.str "x") (.num 3)).1 (.str "x") =
      .num 3 ∧
    (script_vars_set [] (.str "x") (.func 0)).1 = [] ∧
    (script_persistent_set [] (.str "x") (.udata 0)).1 = [] :=
  ⟨(c5_variable_type_gating.1 [] (.str "x") (.num 3)).2.1 rfl,
   (c5_variable_type_gating.1 [] (.str "x") (.func 0)).2.2 (by decide),
   (c5_variable_type_gating.2 [] (.str "x") (.udata 0)).2.2 (by decide)⟩

/-- Claim C6: a global definition succeeds only for a string key that
is not the reserved name `script` and carries no existing binding; a
second definition of the same (non-nil-valued) name errors with the
table unchanged; defining `script` errors regardless. -/
theorem c6_global_redefinition :
    (∀ (g : List (LKey × LVal)) (v : LVal),
      script_globals_set g (.str "script") v = (g, some .reservedName)) ∧
    (∀ (g : List (LKey × LVal)) (k : LKey), k.isStr = false →
      ∀ v : LVal, script_globals_set g k v = (g, some .badGlobalKey)) ∧
    (∀ (g : List (LKey × LVal)) (s : String) (v : LVal), s ≠ "script" →
      (rawgetF g (.str s)).isNil = true →
      script_globals_set g (.str s) v =
        (rawsetF g (.str s) (script_table_readonly v true), none)) ∧
    (∀ (g : List (LKey × LVal)) (s : String) (v : LVal), s ≠ "script" →
      (rawgetF g (.str s)).isNil = false →
      script_globals_set g (.str s) v = (g, some .redefined)) ∧
    (∀ (g : List (LKey × LVal)) (s : String) (v w : LVal),
      s ≠ "script" → (rawgetF g (.str s)).isNil = true →
      v.isNil = false →
      script_globals_set (script_globals_set g (.str s) v).1 (.str s) w =
        ((script_globals_set g (.str s) v).1, some .redefined)) := by
  refine ⟨script_globals_set_reserved, ?_, script_globals_set_fresh,
    script_globals_set_dup, ?_⟩
  · intro g k hk v
    cases k with
    | str s => simp [LKey.isStr] at hk
    | _ => simp [script_globals_set]
  · intro g s v w hs hnil hvn
    rw [script_globals_set_fresh g s v hs hnil]
    exact script_globals_set_dup _ s w hs
      (by rw [rawgetF_rawsetF, readonly_isNil, hvn])

/-- Witness for C6: defining `script` fails; defining `f` then
defining `f` again fails on the second attempt with the table kept. -/
theorem c6_global_redefinition_witness :
    script_globals_set [] (.str "script") (.num 1) =
      ([], some .reservedName) ∧
    script_globals_set (script_globals_set [] (.str "f") (.func 0)).1
        (.str "f") (.num 2) =
      ((script_globals_set [] (.str "f") (.func 0)).1, some .redefined) :=
  ⟨c6_global_redefinition.1 [] (.num 1),
   c6_global_redefinition.2.2.2.2 [] "f" (.func 0) (.num 2)
     (by decide) rfl rfl⟩


mutual

theorem runScript_stack (s : Script) (st : ScriptState) :
    (runScript s st).1.triggerstack = st.triggerstack := by
  cases s with
  | nop => rfl
  | fail => rfl
  | seq a b =>
    rw [runScript]
    rcases hra : runScript a st with ⟨st1, e⟩
    have ha : st1.triggerstack = st.triggerstack := by
      have := runScript_stack a st
      rw [hra] at this
      exact this
    cases e with
    | true => exact ha
    | false =>
      have hb := runScript_stack b st1
      simp only
      rw [hb, ha]
  | invoke selfId otherId activatorId fn =>
    exact script_use_stack selfId otherId activatorId fn st

theorem script_use_stack (selfId otherId activatorId : ℕ) (fn : UseFn)
    (st : ScriptState) :
    (script_use selfId otherId activatorId fn st).triggerstack =
      st.triggerstack := by
  rw [script_use.eq_def]
  by_cases hl : st.loaded = false
  · rw [if_pos hl]
  · rw [if_neg hl]
    cases fn with
    | noname => rfl
    | missing n => rfl
    | nonfunction n => rfl
    | body n s =>
      simp only
      have hrun := runScript_stack s (script_use_push st selfId activatorId)
      rcases hres : runScript s (script_use_push st selfId activatorId)
        with ⟨st1, e⟩
      rw [hres] at hrun
      have h1 : st1.triggerstack =
          st.triggerstack ++ [⟨selfId, activatorId⟩] := hrun
      cases e with
      | true => simp [h1, List.take_left]
      | false => simp [h1, List.take_left]

end

/-- Claim C4: every use-callback invocation pushes exactly one frame —
its own (self, activator) pair, which is then the top frame seen by
everything the body does — and after the invocation the stack is
exactly what it was before, whatever the body did (including raising a
runtime error); consequently a nested invocation leaves the outer
invocation's own frame back on top. -/
theorem c4_trigger_stack_discipline :
    (∀ (selfId otherId activatorId : ℕ) (fn : UseFn) (st : ScriptState),
      (script_use selfId otherId activatorId fn st).triggerstack =
        st.triggerstack) ∧
    (∀ (st : ScriptState) (selfId activatorId : ℕ),
      (script_use_push st selfId activatorId).triggerstack =
        st.triggerstack ++ [⟨selfId, activatorId⟩] ∧
      currentFrame (script_use_push st selfId activatorId) =
        some ⟨selfId, activatorId⟩) ∧
    (∀ (selfId otherId activatorId : ℕ) (fn : UseFn) (st : ScriptState),
      currentFrame
        (runScript (.invoke selfId otherId activatorId fn) st).1 =
        currentFrame st) := by
  refine ⟨script_use_stack, ?_, ?_⟩
  · intro st selfId activatorId
    refine ⟨rfl, ?_⟩
    simp [currentFrame, script_use_push]
  · intro selfId otherId activatorId fn st
    rw [currentFrame, currentFrame]
    rw [show (runScript (.invoke selfId otherId activatorId fn) st).1 =
      script_use selfId otherId activatorId fn st from rfl]
    rw [script_use_stack]

/-- Claim C8: a parse or execution failure leaves the loaded flag
false, and any use-callback invocation in a not-loaded state only logs
the `not loaded` diagnostic: the state is otherwise untouched (no
frame pushed, no script function called). -/
theorem c8_load_failure_safe :
    (∀ (st : ScriptState) (e : String) (execRes : Except String Unit),
      (script_load st (.error e) execRes).loaded = false) ∧
    (∀ (st : ScriptState) (loadRes : Except String Unit) (e : String),
      (script_load st loadRes (.error e)).loaded = false) ∧
    (∀ (st : ScriptState) (selfId otherId activatorId : ℕ) (fn : UseFn),
      st.loaded = false →
      script_use selfId otherId activatorId fn st =
        { st with log := st.log ++ [.notLoaded] }) := by
  refine ⟨?_, ?_, ?_⟩
  · intro st e execRes; rfl
  · intro st loadRes e
    cases loadRes with
    | error e' => rfl
    | ok u => rfl
  · intro st selfId otherId activatorId fn hl
    rw [script_use.eq_def, if_pos hl]

/-- Witness for C8: a failed load of a fresh engine stays not-loaded,
and triggering in that state only appends the diagnostic. -/
theorem c8_load_failure_safe_witness :
    (script_load script_init (.error "syntax error") (.ok ())).loaded =
      false ∧
    script_use 1 2 3 .noname script_init =
      { script_init with log := [.notLoaded] } :=
  ⟨c8_load_failure_safe.1 script_init "syntax error" (.ok ()),
   c8_load_failure_safe.2.2 script_init 1 2 3 .noname rfl⟩

/-- Claim C9: `script_load` resets the ephemeral variable table, the
global namespace (to the single `script` → API binding), the
trigger-context stack and the string pool's index, but leaves the
persistent table untouched for every input; only `script_init` (new
game) produces a fresh persistent table. -/
theorem c9_load_frame_condition :
    (∀ (st : ScriptState) (loadRes execRes : Except String Unit),
      (script_load st loadRes execRes).persistent = st.persistent ∧
      (script_load st loadRes execRes).vars = [] ∧
      (script_load st loadRes execRes).triggerstack = [] ∧
      (script_load st loadRes execRes).stringpool_count = 0 ∧
      (script_load st loadRes execRes).globals =
        [(.str "script", script_api)]) ∧
    script_init.persistent = [] := by
  constructor
  · intro st loadRes execRes
    cases loadRes with
    | error e => exact ⟨rfl, rfl, rfl, rfl, rfl⟩
    | ok u =>
      cases execRes with
      | error e => exact ⟨rfl, rfl, rfl, rfl, rfl⟩
      | ok u' => exact ⟨rfl, rfl, rfl, rfl, rfl⟩
  · rfl

/-- Claim C10 (against the code as written): pick of the empty list is
nil and pick of a non-empty list is an element of the list — but the
claim's "every one of the n positions is possible" fails: the
singleton always yields its only element, while a two-element list
always yields the FIRST element (the upper bound `n - 1` passed to the
half-open `irandom` makes the last position unreachable), for every
possible random draw `r`. -/
theorem c10_pick_behaviour :
    (script_pick ([] : List ℤ) 0 = none) ∧
    (∀ r : ℕ, script_pick [(10 : ℤ)] r = some 10) ∧
    (∀ r : ℕ, script_pick [(10 : ℤ), 20] r = some 10) ∧
    (∀ (l : List ℤ) (r : ℕ), l ≠ [] →
      ∃ i : ℕ, i < l.length ∧ script_pick l r = l.get? i) := by
  refine ⟨rfl, ?_, ?_, ?_⟩
  · intro r
    simp [script_pick, irandom]
  · intro r
    have hmod : (r : ℤ) % 1 = 0 := Int.emod_one _
    simp [script_pick, irandom, hmod]
  · intro l r hl
    have hn : l.length ≠ 0 := by
      simpa [List.length_eq_zero] using hl
    refine ⟨((1 + irandom ((l.length : ℤ) - 1) r) - 1).toNat, ?_, ?_⟩
    · rw [irandom]
      by_cases hk : (l.length : ℤ) - 1 ≤ 0
      · rw [if_pos hk]
        omega
      · rw [if_neg hk]
        have h0 : 0 ≤ (r : ℤ) % ((l.length : ℤ) - 1) :=
          Int.emod_nonneg _ (by omega)
        have h1 : (r : ℤ) % ((l.length : ℤ) - 1) < (l.length : ℤ) - 1 :=
          Int.emod_lt_of_pos _ (by omega)
        omega
    · rw [script_pick.eq_def]
      simp [hn]

/-- Witness for C10's theorem: the failing input — a two-element list;
pick with draw 5 returns the first element, and the picked value is an
element of the list. -/
theorem c10_pick_behaviour_witness :
    script_pick [(10 : ℤ), 20] 5 = some 10 ∧
    ∃ i : ℕ, i < ([(10 : ℤ), 20] : List ℤ).length ∧
      script_pick [(10 : ℤ), 20] 5 = ([(10 : ℤ), 20] : List ℤ).get? i :=
  ⟨c10_pick_behaviour.2.2.1 5,
   c10_pick_behaviour.2.2.2 [(10 : ℤ), 20] 5 (by decide)⟩

end Q2Lua
